import Mathlib

/-!
Verification development for the multi-root configuration / remote-signer
core of a CA toolkit.  The Go sources are shallowly embedded:

* `Multiroot` embeds `multiroot/config/config.go`: the line-oriented config
  parser (the five regular expressions are embedded as deterministic
  matchers, justified line by line against RE2 semantics), `LoadRoot`,
  `parsePrivateKeySpec`, `parseACL` and `Parse`.  External collaborators
  (file system, `net/url`, PEM/DER/X.509 parsing, the RedOctober client,
  PKCS11 session setup, database setup) are oracles collected in an
  environment record `CEnv`; the control flow around them is translated
  from the source.
* `Remote` embeds `signer/remote/remote.go`: the `Signer` state, the shared
  `remoteOp` dispatch and the `Sign`/`Info` operations, with the network,
  JSON marshalling, profile resolution and certificate parsing as oracles
  in `RemoteEnv`.

Fallible Go code returns `Except`; code that can additionally dereference a
nil pointer returns `Outcome`, whose `crash` constructor marks exactly the
nil dereferences present in the source.
-/

/-- Result of running a piece of Go code that may return a value, return an
error, or crash with a nil-pointer dereference. -/
inductive Outcome (ε α : Type) where
  | ok (a : α)
  | error (e : ε)
  | crash
deriving DecidableEq

/-- Go byte slices are modelled as lists of byte values. -/
abbrev Bytes := List Nat

namespace Multiroot

/-! ### Character classes of the RE2 patterns

`\s` in RE2 is exactly `[\t\n\f\r ]`, and `\w` is `[0-9A-Za-z_]`. -/

/-- RE2 `\s`: the five ASCII whitespace characters. -/
def goSpace (c : Char) : Bool :=
  c = ' ' || c = '\t' || c = '\n' || c = '\x0c' || c = '\r'

/-- RE2 `\w`: ASCII letters, digits and underscore. -/
def goWord (c : Char) : Bool :=
  c.isAlphanum || c = '_'

/-- A single or double quote, the character class `["']` of the quoted
config-line pattern. -/
def isQuote (c : Char) : Bool :=
  c = '"' || c = '\''

/-! ### The five line patterns

The scanner feeds `ParseToRawMap` one line at a time, with the trailing
newline (and any trailing `\r`) stripped, so the lines matched here never
contain `\n`; consequently `.` matches every character of the line and `$`
is the end of the line.  Each regular expression below is anchored
(`^...$`) and built from character classes that are pairwise disjoint from
the literal that follows them, so the backtracking search of the capture
semantics is deterministic and equal to the maximal-munch parsers given
here. -/

/-- `commentLine = ^#.*$`: the line's first character is `#` (no leading
whitespace is allowed by the pattern). -/
def commentLineMatch (l : List Char) : Bool :=
  match l with
  | '#' :: _ => true
  | [] => false
  | _ => false

/-- `blankLine = ^\s*$`: every character is RE2 whitespace. -/
def blankLineMatch (l : List Char) : Bool :=
  l.all goSpace

/-- `configSection = ^\s*\[\s*(\w+)\s*\]\s*$`, returning the capture
(the section name) on a match. -/
def matchConfigSection (l : List Char) : Option (List Char) :=
  match l.dropWhile goSpace with
  | '[' :: rest =>
    let r1 := rest.dropWhile goSpace
    let w := r1.takeWhile goWord
    if w = [] then none
    else
      match (r1.dropWhile goWord).dropWhile goSpace with
      | ']' :: r4 => if r4.dropWhile goSpace = [] then some w else none
      | _ => none
  | _ => none

/-- `configLine = ^\s*(\w+)\s*=\s*(.*)\s*$`, returning the two captures
(key, value).  The greedy `\s*` after `=` strips the value's leading
whitespace; the greedy `(.*)` then reaches the end of the line, so the
trailing `\s*` matches the empty string and trailing whitespace stays in
the value. -/
def matchConfigLine (l : List Char) : Option (List Char × List Char) :=
  let l1 := l.dropWhile goSpace
  let k := l1.takeWhile goWord
  if k = [] then none
  else
    match (l1.dropWhile goWord).dropWhile goSpace with
    | '=' :: rest => some (k, rest.dropWhile goSpace)
    | _ => none

/-- The closing part `(.*)["']\s*$` of the quoted pattern: the greedy
`(.*)` backtracks minimally, so the closing quote is the last quote
character of the line that is followed only by whitespace — that is, the
last character once trailing whitespace is stripped.  Returns the capture
(the value between the quotes). -/
def closeQuoted (body : List Char) : Option (List Char) :=
  match body.reverse.dropWhile goSpace with
  | c :: restRev => if isQuote c then some restRev.reverse else none
  | [] => none

/-- `quotedConfigLine = ^\s*(\w+)\s*=\s*["'](.*)["']\s*$`, returning the two
captures (key, value).  Note that the opening and closing quote are matched
by two independent `["']` classes: they need not be the same character. -/
def matchQuotedConfigLine (l : List Char) : Option (List Char × List Char) :=
  let l1 := l.dropWhile goSpace
  let k := l1.takeWhile goWord
  if k = [] then none
  else
    match (l1.dropWhile goWord).dropWhile goSpace with
    | '=' :: rest =>
      match rest.dropWhile goSpace with
      | q :: body =>
        if isQuote q then
          match closeQuoted body with
          | some v => some (k, v)
          | none => none
        else none
      | [] => none
    | _ => none

/-! ### The parser -/

/-- Errors of the config module.  The named constructors are the package's
own error values (`errors.New` values and the exported `Err*` variables);
errors produced by external collaborators are carried as `external`. -/
inductive CfgError where
  | errMissingPrivateKey
  | errMissingCertificatePath
  | errMissingConfigPath
  | errInvalidConfig
  | errUnsupportedScheme
  | errInvalidConfigFile
  | noROServer
  | noROUser
  | noROPass
  | pkcs11NoModule
  | pkcs11NoTokenLabel
  | pkcs11NoCert
  | external (msg : String)
deriving DecidableEq

/-- `RawMap`: section name → (key → raw value).  Go's maps are modelled as
association lists; `SectionInConfig` guarantees section names stay unique,
and key updates overwrite in place, so the association lists have the same
lookup semantics as the maps. -/
abbrev RawCfg := List (String × List (String × String))

/-- The synthetic section collecting key/value lines that precede any
section header. -/
def defaultSection : String := "default"

/-- `RawMap.SectionInConfig`. -/
def sectionInConfig (cfg : RawCfg) (s : String) : Bool :=
  cfg.any (fun e => e.1 = s)

/-- `cfg[section] = make(map[string]string, 0)` guarded by
`SectionInConfig`. -/
def addSection (cfg : RawCfg) (s : String) : RawCfg :=
  if sectionInConfig cfg s then cfg else cfg ++ [(s, [])]

/-- Go map assignment `m[k] = v`: overwrite if present, insert otherwise. -/
def setEntry (m : List (String × String)) (k v : String) : List (String × String) :=
  if m.any (fun p => p.1 = k) then
    m.map (fun p => if p.1 = k then (k, v) else p)
  else m ++ [(k, v)]

/-- `cfg[currentSection][key] = val`. -/
def setKV (cfg : RawCfg) (sec k v : String) : RawCfg :=
  cfg.map (fun e => if e.1 = sec then (e.1, setEntry e.2 k v) else e)

/-- The scanner loop of `ParseToRawMap`: classify each line in the order the
source tests the patterns (comment, blank, section header, key/value —
preferring the quoted pattern when it also matches — else set the
malformed-line error and break).  As in the source, the error case returns
the partially built map together with the error. -/
def parseLines : List String → RawCfg → String → RawCfg × Option CfgError
  | [], cfg, _ => (cfg, none)
  | line :: rest, cfg, cur =>
    let l := line.data
    if commentLineMatch l then parseLines rest cfg cur
    else if blankLineMatch l then parseLines rest cfg cur
    else
      match matchConfigSection l with
      | some w => parseLines rest (addSection cfg (String.mk w)) (String.mk w)
      | none =>
        match matchConfigLine l with
        | some kv0 =>
          let kv := match matchQuotedConfigLine l with
            | some kv1 => kv1
            | none => kv0
          let cur1 := if cur = "" then defaultSection else cur
          let cfg1 := if cur = "" then addSection cfg cur1 else cfg
          parseLines rest (setKV cfg1 cur1 (String.mk kv.1) (String.mk kv.2)) cur1
        | none => (cfg, some CfgError.errInvalidConfigFile)

/-- `ParseToRawMap` on the file's lines (the `os.Open`/scanner plumbing is
the caller's `openConfig` oracle). -/
def parseToRawMap (lines : List String) : RawCfg × Option CfgError :=
  parseLines lines [] ""

/-! ### Root loading

The types below stand for the values produced by external collaborators
(parsed keys, certificates, policies, network blocks, database handles,
RedOctober clients); they are opaque to this core, which only threads them
through, so each is a wrapper around an identifier.  `CEnv` collects the
collaborator operations themselves as oracles; the control flow around the
oracles is translated from `config.go`. -/

/-- A decoded private signing key (opaque `crypto.Signer`). -/
structure PrivKey where
  id : Nat
deriving DecidableEq

/-- A parsed X.509 certificate; only its public key is consulted here
(`cert.PublicKey`, passed to the PKCS11 session setup). -/
structure Cert where
  publicKey : Nat
deriving DecidableEq

/-- The `Signing` section of a loaded policy file (opaque
`*config.Signing`; `config.LoadFile` and the `.Signing` projection are
folded into one oracle). -/
structure SigningConf where
  id : Nat
deriving DecidableEq

/-- A parsed CIDR network block (opaque `*net.IPNet`). -/
structure NetBlock where
  id : Nat
deriving DecidableEq

/-- An opened database handle (opaque `*sqlx.DB`). -/
structure DB where
  id : Nat
deriving DecidableEq

/-- A RedOctober client connection (opaque `client.RemoteServer`). -/
structure ROClient where
  id : Nat
deriving DecidableEq

/-- `core.DecryptRequest`: the credential pair and the ciphertext sent to
the RedOctober server. -/
structure DecryptRequest where
  name : String
  password : String
  data : Bytes
deriving DecidableEq

/-- The result of `net/url.Parse`: the components consulted by
`parsePrivateKeySpec` (scheme, host, path). -/
structure URL where
  scheme : String
  host : String
  path : String
deriving DecidableEq

/-- External collaborators of the config module, as oracles.  Fields
correspond one-to-one to the library calls in `config.go`; each is a
function so that the embedding stays executable on concrete instances. -/
structure CEnv where
  /-- `os.Open` + line scanner of `ParseToRawMap`: the file's lines. -/
  openConfig : String → Except CfgError (List String)
  /-- `os.ReadFile` / `ioutil.ReadFile`. -/
  readFile : String → Except CfgError Bytes
  /-- `net/url.Parse`. -/
  urlParse : String → Except CfgError URL
  /-- `helpers.ParsePrivateKeyPEM`. -/
  parsePrivateKeyPEM : Bytes → Except CfgError PrivKey
  /-- `derhelpers.ParsePrivateKeyDER`. -/
  parsePrivateKeyDER : Bytes → Except CfgError PrivKey
  /-- `helpers.ParseCertificatePEM`. -/
  parseCertificatePEM : Bytes → Except CfgError Cert
  /-- `config.LoadFile` followed by the `.Signing` projection. -/
  loadConfigFile : String → Except CfgError SigningConf
  /-- `net.ParseCIDR` (only the `*net.IPNet` result is used). -/
  parseCIDR : String → Except CfgError NetBlock
  /-- `dbconf.DBFromConfig`. -/
  dbFromConfig : String → Except CfgError DB
  /-- `client.NewRemoteServer` (address, CA path). -/
  roNewRemoteServer : String → String → Except CfgError ROClient
  /-- `roClient.DecryptIntoData`: the decrypted plaintext. -/
  roDecrypt : ROClient → DecryptRequest → Except CfgError Bytes
  /-- `pem.Decode`: `some` block bytes, or `none` when the input holds no
  PEM block (Go returns a nil block pointer then). -/
  pemDecode : Bytes → Option Bytes
  /-- `x509.ParseCertificate`. -/
  x509ParseCertificate : Bytes → Except CfgError Cert
  /-- `pkcs11key.New (module, tokenLabel, pin, publicKey)`. -/
  pkcs11New : String → String → String → Nat → Except CfgError PrivKey

/-- Lookup in a raw section with Go's two-result form: `none` iff the key
is absent. -/
def lookup (cfg : List (String × String)) (k : String) : Option String :=
  (cfg.find? (fun p => p.1 = k)).map (fun p => p.2)

/-- Lookup in a raw section with Go's one-result form: the zero value `""`
when the key is absent. -/
def getD (cfg : List (String × String)) (k : String) : String :=
  (lookup cfg k).getD ""

/-- Model of Go `filepath.Join` restricted to the shapes used here: empty
components are dropped and the rest are joined with `/` (the source uses it
to fold a relative path's leading directory, stored by `url.Parse` in the
host field, back onto the path; no claim depends on path cleaning). -/
def filepathJoin (host path : String) : String :=
  if host = "" then path
  else if path = "" then host
  else host ++ "/" ++ path

/-- A fully loaded root (`Root` struct): nil-able ACL and DB pointers are
options. -/
structure Root where
  privateKey : PrivKey
  certificate : Cert
  config : SigningConf
  acl : Option (List NetBlock)
  db : Option DB
deriving DecidableEq

/-- The loop body of `parseACL`: trim each comma-separated entry, parse it
as CIDR, abort on the first parse error (the whitelist `Add` calls are the
accumulated list). -/
def parseACLList (env : CEnv) : List String → Except CfgError (List NetBlock)
  | [] => .ok []
  | s :: rest =>
    match env.parseCIDR (s.trim) with
    | .error e => .error e
    | .ok n =>
      match parseACLList env rest with
      | .error e => .error e
      | .ok ns => .ok (n :: ns)

/-- `parseACL`: split the `nets` value on commas, trim and parse each entry
(`String.trim` stands for `strings.TrimSpace`; the entries here are ASCII).
Any invalid entry fails the whole build. -/
def parseACL (env : CEnv) (nets : String) : Except CfgError (List NetBlock) :=
  parseACLList env (nets.splitOn ",")

/-- `parsePrivateKeySpec`: parse the specifier as a URL and dispatch on its
scheme.  The `crash` outcome in the `pkcs11` branch marks the source's
dereference `b.Bytes` of the result of `pem.Decode` without a nil check. -/
def parsePrivateKeySpec (env : CEnv) (spec : String)
    (cfg : List (String × String)) : Outcome CfgError PrivKey :=
  match env.urlParse spec with
  | .error e => .error e
  | .ok u =>
    if u.scheme = "file" then
      -- For a relative path url.Parse stores the leading directory in the
      -- host field; Join folds it back onto the path.
      let path := filepathJoin u.host u.path
      match env.readFile path with
      | .error e => .error e
      | .ok inBytes =>
        match env.parsePrivateKeyPEM inBytes with
        | .ok priv => .ok priv
        | .error _ =>
          match env.parsePrivateKeyDER inBytes with
          | .ok priv => .ok priv
          | .error e => .error e
    else if u.scheme = "rofile" then
      let path := filepathJoin u.host u.path
      match env.readFile path with
      | .error e => .error e
      | .ok inBytes =>
        let roServer := getD cfg "ro_server"
        if roServer = "" then .error .noROServer
        else
          -- ro_ca may be empty: the client then uses system CA roots.
          let roCAPath := getD cfg "ro_ca"
          let roUser := getD cfg "ro_user"
          if roUser = "" then .error .noROUser
          else
            let roPass := getD cfg "ro_pass"
            if roPass = "" then .error .noROPass
            else
              match env.roNewRemoteServer roServer roCAPath with
              | .error e => .error e
              | .ok roClient =>
                match env.roDecrypt roClient
                    { name := roUser, password := roPass, data := inBytes } with
                | .error e => .error e
                | .ok plain =>
                  match env.parsePrivateKeyPEM plain with
                  | .ok priv => .ok priv
                  | .error _ =>
                    match env.parsePrivateKeyDER plain with
                    | .ok priv => .ok priv
                    | .error e => .error e
    else if u.scheme = "pkcs11" then
      let module := getD cfg "module"
      if module = "" then .error .pkcs11NoModule
      else
        let tokenLabel := getD cfg "token_label"
        if tokenLabel = "" then .error .pkcs11NoTokenLabel
        else
          -- An empty pin only logs an informational message.
          let pin := getD cfg "pin"
          let certificate := getD cfg "certificate"
          if certificate = "" then .error .pkcs11NoCert
          else
            match env.readFile certificate with
            | .error e => .error e
            | .ok p =>
              match env.pemDecode p with
              | none => .crash
                -- `b, _ := pem.Decode(p)` with b == nil: `b.Bytes` on the
                -- next line dereferences a nil pointer.
              | some blockBytes =>
                match env.x509ParseCertificate blockBytes with
                | .error e => .error e
                | .ok cert =>
                  match env.pkcs11New module tokenLabel pin cert.publicKey with
                  | .error e => .error e
                  | .ok priv => .ok priv
    else .error .errUnsupportedScheme

/-- `LoadRoot`: check the three required keys, resolve the signing key,
then certificate, policy file, optional ACL and optional DB handle; any
step's failure aborts with that step's error. -/
def LoadRoot (env : CEnv) (cfg : List (String × String)) : Outcome CfgError Root :=
  match lookup cfg "private" with
  | none => .error .errMissingPrivateKey
  | some spec =>
    match lookup cfg "certificate" with
    | none => .error .errMissingCertificatePath
    | some certPath =>
      match lookup cfg "config" with
      | none => .error .errMissingConfigPath
      | some configPath =>
        match parsePrivateKeySpec env spec cfg with
        | .crash => .crash
        | .error e => .error e
        | .ok priv =>
          match env.readFile certPath with
          | .error e => .error e
          | .ok certBytes =>
            match env.parseCertificatePEM certBytes with
            | .error e => .error e
            | .ok cert =>
              match env.loadConfigFile configPath with
              | .error e => .error e
              | .ok conf =>
                let nets := getD cfg "nets"
                match (if nets = "" then Except.ok none
                       else (parseACL env nets).map some :
                       Except CfgError (Option (List NetBlock))) with
                | .error e => .error e
                | .ok acl =>
                  let dbConfig := getD cfg "dbconfig"
                  match (if dbConfig = "" then Except.ok none
                         else (env.dbFromConfig dbConfig).map some :
                         Except CfgError (Option DB)) with
                  | .error e => .error e
                  | .ok db =>
                    .ok { privateKey := priv, certificate := cert,
                          config := conf, acl := acl, db := db }

/-- The per-section loop of `Parse`: load every section's root, aborting on
the first failure (the map built so far is discarded). -/
def loadRoots (env : CEnv) : List (String × List (String × String)) →
    Outcome CfgError (List (String × Root))
  | [] => .ok []
  | (label, entries) :: rest =>
    match LoadRoot env entries with
    | .crash => .crash
    | .error e => .error e
    | .ok root =>
      match loadRoots env rest with
      | .crash => .crash
      | .error e => .error e
      | .ok rl => .ok ((label, root) :: rl)

/-- `ParseToRawMap` including the `os.Open` step: an open failure returns
the empty map with the error, as in the source. -/
def parseToRawMapFile (env : CEnv) (fileName : String) : RawCfg × Option CfgError :=
  match env.openConfig fileName with
  | .error e => ([], some e)
  | .ok lines => parseToRawMap lines

/-- `Parse`: run the config parser, then `LoadRoot` over every section;
a parse error or any root's failure yields an error and no root list. -/
def Parse (env : CEnv) (filename : String) : Outcome CfgError (List (String × Root)) :=
  match parseToRawMapFile env filename with
  | (_, some e) => .error e
  | (cfgMap, none) => loadRoots env cfgMap

end Multiroot

namespace Remote

/-! ### The remote signer (`signer/remote/remote.go`)

The network, JSON marshalling, profile resolution and certificate parsing
are external collaborators, collected as oracles in `RemoteEnv`; the
control flow of `Sign`, `Info` and the shared `remoteOp` dispatch is
translated from the source.  The outbound network call is reified as a
`RemoteCall` value — `authSign` carries the auth provider, `sign` and
`info` carry none — so which credentials are attached to a call is visible
in the call the oracle receives. -/

/-- The signing policy held by the signer (opaque `*config.Signing`). -/
structure Policy where
  id : Nat
deriving DecidableEq

/-- An auth provider (`auth.Provider`) configured on a profile for signing
calls. -/
structure AuthProvider where
  id : Nat
deriving DecidableEq

/-- The issuance profile resolved for a request: the fields of
`*config.SigningProfile` consulted by `remoteOp`. -/
structure Profile where
  remoteServer : String
  remoteCAs : Nat
  clientCert : Nat
  remoteProvider : Option AuthProvider
deriving DecidableEq

/-- `signer.SignRequest`: the fields consulted by `Sign` (the remaining
fields ride along inside the JSON serialization produced by the marshal
oracle). -/
structure SignRequest where
  profile : String
  label : String
deriving DecidableEq

/-- `info.Req`: the fields consulted by `Info`. -/
structure InfoReq where
  profile : String
  label : String
deriving DecidableEq

/-- The dynamic `req interface{}` argument of `remoteOp`. -/
inductive RemoteReq where
  | signReq (r : SignRequest)
  | infoReq (r : InfoReq)
deriving DecidableEq

/-- A decoded `*info.Resp`. -/
structure InfoResp where
  id : Nat
deriving DecidableEq

/-- The dynamic response of the remote endpoint: raw certificate bytes, a
decoded info response, or a value of any other type (the type assertions in
`Sign`/`Info` then fail). -/
inductive RemoteResp where
  | certBytes (b : Bytes)
  | infoResp (r : InfoResp)
  | otherResp
deriving DecidableEq

/-- The outbound call `remoteOp` hands to the transport: `info` and `sign`
are the plain calls, `authSign` is the authenticated sign call carrying the
profile's auth provider. -/
inductive RemoteCall where
  | info (body : Bytes)
  | sign (body : Bytes)
  | authSign (body : Bytes) (provider : AuthProvider)
deriving DecidableEq

/-- Errors of the remote signer: `wrapped` is `cferr.Wrap(APIClientError,
JSONError, err)` around a marshal failure in `remoteOp`; `noRemote` is the
"failed to connect to remote" policy error; `plain` carries every error
returned verbatim (profile resolution, network, DB insert, the second
marshal in `Sign`). -/
inductive RError where
  | wrapped (msg : String)
  | noRemote
  | plain (msg : String)
deriving DecidableEq

/-- The record persisted on successful issuance
(`certdb.CertificateRecord`). -/
structure CertificateRecord where
  serial : String
  subject : String
  aki : String
  caLabel : String
  caProfile : String
  status : String
  expiry : Nat
  pem : Bytes
  request : Bytes
deriving DecidableEq

/-- The fields of a parsed certificate consulted when building a
`CertificateRecord`. -/
structure ParsedCert where
  serialNumber : Nat
  subject : String
  authorityKeyId : Bytes
  notAfter : Nat
deriving DecidableEq

/-- The `Signer` struct: the configuration triple.  The request modifier
only edits the outbound HTTP request and is opaque to this model; the DB
accessor is the `InsertCertificate` operation of the configured
`certdb.Accessor` (a nil accessor is `none`). -/
structure SignerState where
  policy : Option Policy
  reqModifier : Option Nat
  dbAccessor : Option (CertificateRecord → Except RError Unit)

/-- External collaborators of the remote signer, as oracles. -/
structure RemoteEnv where
  /-- `json.Marshal` on the request (`remoteOp` and the record-building
  step in `Sign` marshal the same request value). -/
  marshal : RemoteReq → Except String Bytes
  /-- `signer.Profile(s, profile)`: resolves the issuance profile named in
  the request from the signer's policy (library code outside this core). -/
  resolveProfile : Option Policy → String → Except RError Profile
  /-- `client.NewServerTLS(p.RemoteServer, CreateTLSConfig(...))` returned
  a non-nil server. -/
  serverOk : Profile → Bool
  /-- The transport: `server.Info`, `server.Sign` or `server.AuthSign`,
  identified by the `RemoteCall` argument. -/
  respond : RemoteCall → Except RError RemoteResp
  /-- `helpers.ParseCertificatePEM` on the returned certificate bytes;
  `none` when parsing fails (Go returns a nil certificate then). -/
  parseCertificatePEM : Bytes → Option ParsedCert

/-- One lowercase hex digit. -/
def hexDigit (n : Nat) : Char :=
  if n < 10 then Char.ofNat ('0'.toNat + n) else Char.ofNat ('a'.toNat + (n - 10))

/-- `hex.EncodeToString`: two lowercase hex digits per byte. -/
def hexEncode (bytes : Bytes) : String :=
  String.mk (bytes.flatMap (fun b => [hexDigit (b % 256 / 16), hexDigit (b % 16)]))

/-- The `certdb.CertificateRecord` literal built in `Sign`: serial as a
decimal string, subject string, AKI hex-encoded, label/profile from the
request, status `"good"`, the certificate's expiry, the PEM bytes and the
JSON-serialized request. -/
def mkCertRecord (pc : ParsedCert) (req : SignRequest) (cert reqJSON : Bytes) :
    CertificateRecord :=
  { serial := Nat.repr pc.serialNumber
  , subject := pc.subject
  , aki := hexEncode pc.authorityKeyId
  , caLabel := req.label
  , caProfile := req.profile
  , status := "good"
  , expiry := pc.notAfter
  , pem := cert
  , request := reqJSON }

/-- `remoteOp`: marshal the request (failure is wrapped as a JSON API
error), resolve the profile, build the TLS server (a nil server is the
"failed to connect to remote" error), set the request modifier (opaque
here), then dispatch: the `info` target always gets the plain info call;
otherwise the auth-sign call is used when the profile has an auth provider,
else the plain sign call. -/
def remoteOp (s : SignerState) (env : RemoteEnv) (req : RemoteReq)
    (profile target : String) : Except RError RemoteResp :=
  match env.marshal req with
  | .error msg => .error (.wrapped msg)
  | .ok jsonData =>
    match env.resolveProfile s.policy profile with
    | .error e => .error e
    | .ok p =>
      if env.serverOk p then
        -- There's no auth provider for the "info" method.
        match (if target = "info" then env.respond (.info jsonData)
               else match p.remoteProvider with
                 | some prov => env.respond (.authSign jsonData prov)
                 | none => env.respond (.sign jsonData)) with
        | .error e => .error e
        | .ok resp => .ok resp
      else .error .noRemote

/-- The call `remoteOp` dispatches to the transport for a `sign` target,
given the profile's optional auth provider. -/
def outboundSignCall (jsonData : Bytes) : Option AuthProvider → RemoteCall
  | some prov => .authSign jsonData prov
  | none => .sign jsonData

/-- `Sign`: run `remoteOp` with target `"sign"`; on certificate bytes,
parse them with the error discarded (`parsedCert, _ := ...`), re-marshal
the request for the record, and if a DB accessor is configured build and
insert the `CertificateRecord` — an insert failure returns that error and
drops the certificate.  The `crash` outcome marks the source's field
accesses `parsedCert.SerialNumber` etc. on the nil result of a failed
parse.  A response of any other dynamic type falls through to the bare
`return`, which yields nil bytes and nil error. -/
def Sign (s : SignerState) (env : RemoteEnv) (req : SignRequest) :
    Outcome RError Bytes :=
  match remoteOp s env (.signReq req) req.profile "sign" with
  | .error e => .error e
  | .ok resp =>
    match resp with
    | .certBytes cert =>
      let parsedCert? := env.parseCertificatePEM cert
      match env.marshal (.signReq req) with
      | .error msg => .error (.plain msg)
      | .ok reqJSON =>
        match s.dbAccessor with
        | none => .ok cert
        | some insert =>
          match parsedCert? with
          | none => .crash
          | some parsedCert =>
            match insert (mkCertRecord parsedCert req cert reqJSON) with
            | .error e => .error e
            | .ok _ => .ok cert
    | _ => .ok []

/-- `Info`: run `remoteOp` with target `"info"`; a decoded info response is
returned, any other dynamic type falls through to the bare `return` (nil
response, nil error, modelled as `none`). -/
def Info (s : SignerState) (env : RemoteEnv) (req : InfoReq) :
    Except RError (Option InfoResp) :=
  match remoteOp s env (.infoReq req) req.profile "info" with
  | .error e => .error e
  | .ok respInterface =>
    match respInterface with
    | .infoResp r => .ok (some r)
    | _ => .ok none

end Remote

namespace Multiroot

/-! ### Concrete environments used by the witnesses -/

/-- An environment whose oracles all fail; the keys-and-dispatch logic of
`LoadRoot` never reaches them in the scenarios below. -/
def cenvFail : CEnv :=
  { openConfig := fun _ => .error (.external "io")
  , readFile := fun _ => .error (.external "io")
  , urlParse := fun _ => .error (.external "url")
  , parsePrivateKeyPEM := fun _ => .error (.external "pem")
  , parsePrivateKeyDER := fun _ => .error (.external "der")
  , parseCertificatePEM := fun _ => .error (.external "certpem")
  , loadConfigFile := fun _ => .error (.external "conf")
  , parseCIDR := fun _ => .error (.external "cidr")
  , dbFromConfig := fun _ => .error (.external "db")
  , roNewRemoteServer := fun _ _ => .error (.external "ro")
  , roDecrypt := fun _ _ => .error (.external "rodec")
  , pemDecode := fun _ => none
  , x509ParseCertificate := fun _ => .error (.external "x509")
  , pkcs11New := fun _ _ _ _ => .error (.external "p11") }

/-- `cenvFail` with a URL parser resolving `file:///k`, a readable key
file, and PEM parsing succeeding. -/
def cenvFilePemOk : CEnv :=
  { cenvFail with
    urlParse := fun _ => .ok { scheme := "file", host := "", path := "/k" }
  , readFile := fun _ => .ok [1, 2]
  , parsePrivateKeyPEM := fun _ => .ok ⟨1⟩ }

/-- `cenvFail` with the key file readable, PEM parsing failing and DER
parsing succeeding. -/
def cenvFileDerOk : CEnv :=
  { cenvFail with
    urlParse := fun _ => .ok { scheme := "file", host := "", path := "/k" }
  , readFile := fun _ => .ok [1, 2] }

/-- `cenvFileDerOk` patched so DER parsing succeeds. -/
def cenvFileDerOk2 : CEnv :=
  { cenvFileDerOk with parsePrivateKeyDER := fun _ => .ok ⟨2⟩ }

/-- A URL parser recognizing an `ssh` specifier. -/
def cenvSsh : CEnv :=
  { cenvFail with
    urlParse := fun _ => .ok { scheme := "ssh", host := "host", path := "/path" } }

/-- A `pkcs11` environment whose certificate file is readable but holds no
PEM block. -/
def cenvP11 : CEnv :=
  { cenvFail with
    urlParse := fun _ => .ok { scheme := "pkcs11", host := "", path := "" }
  , readFile := fun _ => .ok [0] }

/-- The raw section used by the `pkcs11` witness. -/
def cfgP11 : List (String × String) :=
  [("module", "m"), ("token_label", "t"), ("certificate", "c"),
   ("private", "pkcs11:"), ("config", "x")]

/-- An environment whose config file has one malformed line. -/
def cenvBadLine : CEnv :=
  { cenvFail with openConfig := fun _ => .ok ["???"] }

/-- An environment whose config file declares one section with no keys. -/
def cenvEmptyRoot : CEnv :=
  { cenvFail with openConfig := fun _ => .ok ["[a]"] }

/-! ### C7: distinct missing-field errors in `LoadRoot` -/

/-- C7: a raw section missing `private`, `certificate` or `config` makes
`LoadRoot` fail with a distinct missing-field error per key (the three
errors are pairwise distinct), and no root is returned. -/
theorem loadRoot_missing_field_errors (env : CEnv) (cfg : List (String × String)) :
    (lookup cfg "private" = none →
      LoadRoot env cfg = .error .errMissingPrivateKey)
    ∧ (∀ spec, lookup cfg "private" = some spec →
        lookup cfg "certificate" = none →
        LoadRoot env cfg = .error .errMissingCertificatePath)
    ∧ (∀ spec certPath, lookup cfg "private" = some spec →
        lookup cfg "certificate" = some certPath →
        lookup cfg "config" = none →
        LoadRoot env cfg = .error .errMissingConfigPath)
    ∧ (CfgError.errMissingPrivateKey ≠ CfgError.errMissingCertificatePath
        ∧ CfgError.errMissingPrivateKey ≠ CfgError.errMissingConfigPath
        ∧ CfgError.errMissingCertificatePath ≠ CfgError.errMissingConfigPath) := by
  refine ⟨?_, ?_, ?_, by decide⟩
  · intro h
    simp [LoadRoot, h]
  · intro spec h1 h2
    simp [LoadRoot, h1, h2]
  · intro spec certPath h1 h2 h3
    simp [LoadRoot, h1, h2, h3]

theorem loadRoot_missing_field_errors_witness :
    LoadRoot cenvFail [] = .error .errMissingPrivateKey
    ∧ LoadRoot cenvFail [("private", "x")] = .error .errMissingCertificatePath
    ∧ LoadRoot cenvFail [("private", "x"), ("certificate", "c")] =
        .error .errMissingConfigPath :=
  ⟨(loadRoot_missing_field_errors cenvFail []).1 rfl,
   (loadRoot_missing_field_errors cenvFail [("private", "x")]).2.1 "x" rfl rfl,
   (loadRoot_missing_field_errors cenvFail
      [("private", "x"), ("certificate", "c")]).2.2.1 "x" "c" rfl rfl rfl⟩

/-! ### C8: the `file` backend parses PEM first, then DER -/

/-- C8: on a `file`-scheme specifier the resolver reads the file and tries
PEM private-key parsing first; DER parsing is consulted only when PEM
fails (a PEM success is returned whatever the DER oracle would say), and
when both fail the DER error is surfaced. -/
theorem fileScheme_pem_then_der (env : CEnv) (spec : String)
    (cfg : List (String × String)) (u : URL) (bytes : Bytes)
    (hu : env.urlParse spec = .ok u) (hs : u.scheme = "file")
    (hr : env.readFile (filepathJoin u.host u.path) = .ok bytes) :
    (∀ k, env.parsePrivateKeyPEM bytes = .ok k →
      parsePrivateKeySpec env spec cfg = .ok k)
    ∧ (∀ e1 k, env.parsePrivateKeyPEM bytes = .error e1 →
        env.parsePrivateKeyDER bytes = .ok k →
        parsePrivateKeySpec env spec cfg = .ok k)
    ∧ (∀ e1 e2, env.parsePrivateKeyPEM bytes = .error e1 →
        env.parsePrivateKeyDER bytes = .error e2 →
        parsePrivateKeySpec env spec cfg = .error e2) := by
  refine ⟨?_, ?_, ?_⟩
  · intro k hpem
    simp [parsePrivateKeySpec, hu, hs, hr, hpem]
  · intro e1 k hpem hder
    simp [parsePrivateKeySpec, hu, hs, hr, hpem, hder]
  · intro e1 e2 hpem hder
    simp [parsePrivateKeySpec, hu, hs, hr, hpem, hder]

theorem fileScheme_pem_then_der_witness :
    parsePrivateKeySpec cenvFilePemOk "file:///k" [] = .ok ⟨1⟩
    ∧ parsePrivateKeySpec cenvFileDerOk2 "file:///k" [] = .ok ⟨2⟩
    ∧ parsePrivateKeySpec cenvFileDerOk "file:///k" [] =
        .error (.external "der") :=
  ⟨(fileScheme_pem_then_der cenvFilePemOk "file:///k" []
      { scheme := "file", host := "", path := "/k" } [1, 2] rfl rfl rfl).1 ⟨1⟩ rfl,
   (fileScheme_pem_then_der cenvFileDerOk2 "file:///k" []
      { scheme := "file", host := "", path := "/k" } [1, 2] rfl rfl rfl).2.1
      (.external "pem") ⟨2⟩ rfl rfl,
   (fileScheme_pem_then_der cenvFileDerOk "file:///k" []
      { scheme := "file", host := "", path := "/k" } [1, 2] rfl rfl rfl).2.2
      (.external "pem") (.external "der") rfl rfl⟩

/-! ### C9: unsupported schemes -/

/-- C9: a specifier whose scheme is none of `file`, `rofile`, `pkcs11`
fails with the unsupported-scheme error, which is distinct from every
package-defined configuration error and from every collaborator-produced
backend error. -/
theorem unsupported_scheme_error (env : CEnv) (spec : String)
    (cfg : List (String × String)) (u : URL)
    (hu : env.urlParse spec = .ok u)
    (h1 : u.scheme ≠ "file") (h2 : u.scheme ≠ "rofile")
    (h3 : u.scheme ≠ "pkcs11") :
    parsePrivateKeySpec env spec cfg = .error .errUnsupportedScheme
    ∧ (CfgError.errUnsupportedScheme ≠ CfgError.errMissingPrivateKey
        ∧ CfgError.errUnsupportedScheme ≠ CfgError.errMissingCertificatePath
        ∧ CfgError.errUnsupportedScheme ≠ CfgError.errMissingConfigPath
        ∧ CfgError.errUnsupportedScheme ≠ CfgError.errInvalidConfig
        ∧ CfgError.errUnsupportedScheme ≠ CfgError.errInvalidConfigFile
        ∧ CfgError.errUnsupportedScheme ≠ CfgError.noROServer
        ∧ CfgError.errUnsupportedScheme ≠ CfgError.noROUser
        ∧ CfgError.errUnsupportedScheme ≠ CfgError.noROPass
        ∧ CfgError.errUnsupportedScheme ≠ CfgError.pkcs11NoModule
        ∧ CfgError.errUnsupportedScheme ≠ CfgError.pkcs11NoTokenLabel
        ∧ CfgError.errUnsupportedScheme ≠ CfgError.pkcs11NoCert
        ∧ ∀ msg, CfgError.errUnsupportedScheme ≠ CfgError.external msg) := by
  constructor
  · simp [parsePrivateKeySpec, hu, h1, h2, h3]
  · exact ⟨by decide, by decide, by decide, by decide, by decide, by decide,
      by decide, by decide, by decide, by decide, by decide,
      fun msg h => CfgError.noConfusion h⟩

theorem unsupported_scheme_error_witness :
    parsePrivateKeySpec cenvSsh "ssh://host/path" [] =
      .error .errUnsupportedScheme :=
  (unsupported_scheme_error cenvSsh "ssh://host/path" []
    { scheme := "ssh", host := "host", path := "/path" } rfl
    (by decide) (by decide) (by decide)).1

/-! ### C10: the pkcs11 branch dereferences the PEM block without a nil
check -/

/-- C10: with `module`, `token_label` and `certificate` set and the
certificate file readable, a certificate file holding no PEM block makes
`parsePrivateKeySpec` crash on the nil `pem.Decode` result; the branch
returning a backend error is never reached. -/
theorem pkcs11_non_pem_crash (env : CEnv) (spec : String)
    (cfg : List (String × String)) (u : URL) (p : Bytes)
    (hu : env.urlParse spec = .ok u) (hs : u.scheme = "pkcs11")
    (hm : getD cfg "module" ≠ "") (ht : getD cfg "token_label" ≠ "")
    (hc : getD cfg "certificate" ≠ "")
    (hr : env.readFile (getD cfg "certificate") = .ok p)
    (hd : env.pemDecode p = none) :
    parsePrivateKeySpec env spec cfg = .crash
    ∧ ∀ e, parsePrivateKeySpec env spec cfg ≠ .error e := by
  have hmain : parsePrivateKeySpec env spec cfg = .crash := by
    simp [parsePrivateKeySpec, hu, hs, hm, ht, hc, hr, hd]
  exact ⟨hmain, fun e h => by rw [hmain] at h; exact Outcome.noConfusion h⟩

theorem pkcs11_non_pem_crash_witness :
    parsePrivateKeySpec cenvP11 "pkcs11:" cfgP11 = .crash
    ∧ parsePrivateKeySpec cenvP11 "pkcs11:" cfgP11 ≠
        .error (.external "p11") :=
  ⟨(pkcs11_non_pem_crash cenvP11 "pkcs11:" cfgP11
      { scheme := "pkcs11", host := "", path := "" } [0]
      rfl rfl (by decide) (by decide) (by decide) rfl rfl).1,
   (pkcs11_non_pem_crash cenvP11 "pkcs11:" cfgP11
      { scheme := "pkcs11", host := "", path := "" } [0]
      rfl rfl (by decide) (by decide) (by decide) rfl rfl).2 (.external "p11")⟩

/-! ### C6: `Parse` is all-or-nothing -/

/-- If the per-section loop returns a root list, every section's root
loaded successfully. -/
theorem loadRoots_ok_mem (env : CEnv) :
    ∀ (l : List (String × List (String × String)))
      (rl : List (String × Root)),
      loadRoots env l = .ok rl →
      ∀ label entries, (label, entries) ∈ l →
        ∃ r, LoadRoot env entries = .ok r := by
  intro l
  induction l with
  | nil =>
    intro rl _ label entries hmem
    cases hmem
  | cons hd tl ih =>
    intro rl h label entries hmem
    obtain ⟨lab0, ent0⟩ := hd
    cases hload : LoadRoot env ent0 with
    | crash => simp [loadRoots, hload] at h
    | error e => simp [loadRoots, hload] at h
    | ok root =>
      cases hrest : loadRoots env tl with
      | crash => simp [loadRoots, hload, hrest] at h
      | error e => simp [loadRoots, hload, hrest] at h
      | ok rl' =>
        rcases List.mem_cons.mp hmem with heq | hmem'
        · obtain ⟨h1, h2⟩ := Prod.mk.injEq .. ▸ heq
          exact ⟨root, h2 ▸ hload⟩
        · exact ih rl' hrest label entries hmem'

/-- C6: `Parse` runs the config parser and then `LoadRoot` over every
section; a malformed config line surfaces as that parse error, and if any
section's root fails to load, no root list is returned. -/
theorem parse_all_or_nothing (env : CEnv) (filename : String) :
    (∀ e, (parseToRawMapFile env filename).2 = some e →
      Parse env filename = .error e)
    ∧ (∀ label entries,
        (parseToRawMapFile env filename).2 = none →
        (label, entries) ∈ (parseToRawMapFile env filename).1 →
        (∃ e, LoadRoot env entries = .error e) →
        ∀ rl, Parse env filename ≠ .ok rl) := by
  constructor
  · intro e he
    unfold Parse
    rcases hp : parseToRawMapFile env filename with ⟨m, o⟩
    rw [hp] at he
    simp at he
    subst he
    rfl
  · intro label entries hnone hmem hex rl hok
    rcases hex with ⟨e, he⟩
    rcases hp : parseToRawMapFile env filename with ⟨m, o⟩
    rw [hp] at hnone hmem
    simp at hnone
    subst hnone
    unfold Parse at hok
    rw [hp] at hok
    simp at hmem hok
    obtain ⟨r, hr⟩ := loadRoots_ok_mem env m rl hok label entries hmem
    rw [he] at hr
    exact Outcome.noConfusion hr

theorem parse_all_or_nothing_witness :
    Parse cenvBadLine "f" = .error .errInvalidConfigFile
    ∧ Parse cenvEmptyRoot "f" ≠ .ok [] :=
  ⟨(parse_all_or_nothing cenvBadLine "f").1 .errInvalidConfigFile rfl,
   (parse_all_or_nothing cenvEmptyRoot "f").2 "a" [] rfl (by decide)
     ⟨.errMissingPrivateKey, rfl⟩ []⟩

/-! ### Character-class facts and matcher-reduction lemmas -/

theorem goSpace_elim {c : Char} (h : goSpace c = true) :
    c = ' ' ∨ c = '\t' ∨ c = '\n' ∨ c = '\x0c' ∨ c = '\r' := by
  simpa [goSpace, or_assoc] using h

/-- A word character is not whitespace (`\w` and `\s` are disjoint). -/
theorem goWord_not_space {c : Char} (h : goWord c = true) : goSpace c = false := by
  cases hs : goSpace c with
  | false => rfl
  | true =>
    rcases goSpace_elim hs with h' | h' | h' | h' | h' <;> subst h' <;>
      exact absurd h (by decide)

/-- A quote character is not whitespace. -/
theorem isQuote_not_space {c : Char} (h : isQuote c = true) : goSpace c = false := by
  have h2 : c = '"' ∨ c = '\'' := by simpa [isQuote] using h
  rcases h2 with h' | h' <;> subst h' <;> decide

/-- `takeWhile`/`dropWhile` split an append whose left part satisfies the
predicate throughout and whose right part starts with a failing
character. -/
theorem takeWhile_dropWhile_append {p : Char → Bool} :
    ∀ (k r : List Char), k.all p = true →
      (∀ c, r.head? = some c → p c = false) →
      (k ++ r).takeWhile p = k ∧ (k ++ r).dropWhile p = r := by
  intro k
  induction k with
  | nil =>
    intro r _ hr
    cases r with
    | nil => exact ⟨rfl, rfl⟩
    | cons c r' =>
      constructor
      · simp [List.takeWhile_cons, hr c rfl]
      · simp [List.dropWhile_cons, hr c rfl]
  | cons a k' ih =>
    intro r hall hr
    have hall' : p a = true ∧ k'.all p = true := by simpa using hall
    have hrec := ih r hall'.2 hr
    constructor
    · simp [List.takeWhile_cons, hall'.1, hrec.1]
    · simp [List.dropWhile_cons, hall'.1, hrec.2]

/-- `dropWhile` is the identity on a list whose head fails the
predicate. -/
theorem dropWhile_head_false {p : Char → Bool} {l : List Char} {c : Char}
    (h : l.head? = some c) (hc : p c = false) : l.dropWhile p = l := by
  cases l with
  | nil => cases h
  | cons a l' =>
    obtain rfl : a = c := by simpa using h
    simp [List.dropWhile_cons, hc]

/-- The closing `(.*)["']\s*$` succeeds on a value immediately followed by
a closing quote: the greedy `(.*)` backtracks to the quote, which is the
last non-whitespace character. -/
theorem closeQuoted_append {v : List Char} {q : Char} (hq : isQuote q = true) :
    closeQuoted (v ++ [q]) = some v := by
  unfold closeQuoted
  rw [List.reverse_append]
  simp only [List.reverse_cons, List.reverse_nil, List.nil_append,
    List.singleton_append]
  rw [List.dropWhile_cons, if_neg (by simp [isQuote_not_space hq])]
  simp [hq]

/-- Reduction of the quoted-line matcher on a line `key=rest` whose key is
a nonempty word: what remains is the quote search over `rest`. -/
theorem matchQuoted_reduce (k rest : List Char) (hk : k ≠ [])
    (hkw : k.all goWord = true) :
    matchQuotedConfigLine (k ++ '=' :: rest) =
      (match rest.dropWhile goSpace with
       | q :: body =>
         if isQuote q then
           match closeQuoted body with
           | some v => some (k, v)
           | none => none
         else none
       | [] => none) := by
  obtain ⟨c, k', rfl⟩ : ∃ c k', k = c :: k' := by
    cases k with
    | nil => exact absurd rfl hk
    | cons c k' => exact ⟨c, k', rfl⟩
  have hc : goWord c = true := by
    have := hkw
    simp at this
    exact this.1
  have h0 : ((c :: k') ++ '=' :: rest).dropWhile goSpace = (c :: k') ++ '=' :: rest :=
    dropWhile_head_false (by simp) (goWord_not_space hc)
  have h1 := takeWhile_dropWhile_append (c :: k') ('=' :: rest) hkw
    (by intro x hx; simp at hx; subst hx; decide)
  have h2 : ('=' :: rest).dropWhile goSpace = '=' :: rest :=
    @dropWhile_head_false goSpace ('=' :: rest) '=' rfl (by decide)
  simp only [matchQuotedConfigLine, h0, h1.1, h1.2, h2]
  simp [hk]

/-- Reduction of the unquoted-line matcher on a line `key=rest` whose key
is a nonempty word: the value is `rest` with leading whitespace
stripped. -/
theorem matchConfig_reduce (k rest : List Char) (hk : k ≠ [])
    (hkw : k.all goWord = true) :
    matchConfigLine (k ++ '=' :: rest) = some (k, rest.dropWhile goSpace) := by
  obtain ⟨c, k', rfl⟩ : ∃ c k', k = c :: k' := by
    cases k with
    | nil => exact absurd rfl hk
    | cons c k' => exact ⟨c, k', rfl⟩
  have hc : goWord c = true := by
    have := hkw
    simp at this
    exact this.1
  have h0 : ((c :: k') ++ '=' :: rest).dropWhile goSpace = (c :: k') ++ '=' :: rest :=
    dropWhile_head_false (by simp) (goWord_not_space hc)
  have h1 := takeWhile_dropWhile_append (c :: k') ('=' :: rest) hkw
    (by intro x hx; simp at hx; subst hx; decide)
  have h2 : ('=' :: rest).dropWhile goSpace = '=' :: rest :=
    @dropWhile_head_false goSpace ('=' :: rest) '=' rfl (by decide)
  simp only [matchConfigLine, h0, h1.1, h1.2, h2]
  simp [hk]

/-! ### C4: the two value patterns -/

/-- C4 counterexample: on `k = "abc'` the value is wrapped in a
*mismatched* pair of quotes, yet the quoted pattern matches and the quotes
are stripped — the parser stores `abc`, not the claimed verbatim
`"abc'`. -/
theorem quoted_mismatched_pair_cex :
    matchQuotedConfigLine ("k = \"abc'".data) = some ("k".data, "abc".data)
    ∧ parseToRawMap ["k = \"abc'"] = ([(defaultSection, [("k", "abc")])], none) := by
  constructor
  · decide
  · decide

/-- C4 (amended): the quoted pattern applies whenever the value is wrapped
in a pair of quote characters, each independently single or double (they
need not match), and the quotes are stripped; when the quoted pattern
fails (e.g. an opening quote with no closing quote before the line's
trailing whitespace) but the unquoted pattern matches, the value is taken
literally including the quote character, so `"abc` yields `"abc`
verbatim. -/
theorem quoted_pattern_behavior (k v : List Char) (q1 q2 : Char)
    (hk : k ≠ []) (hkw : k.all goWord = true)
    (hq1 : isQuote q1 = true) (hq2 : isQuote q2 = true) :
    matchQuotedConfigLine (k ++ '=' :: q1 :: (v ++ [q2])) = some (k, v)
    ∧ (closeQuoted v = none →
        matchQuotedConfigLine (k ++ '=' :: q1 :: v) = none
        ∧ matchConfigLine (k ++ '=' :: q1 :: v) = some (k, q1 :: v)) := by
  have hqd : ∀ rest : List Char,
      (q1 :: rest).dropWhile goSpace = q1 :: rest :=
    fun rest => dropWhile_head_false (by simp) (isQuote_not_space hq1)
  constructor
  · rw [matchQuoted_reduce k (q1 :: (v ++ [q2])) hk hkw, hqd]
    simp [hq1, closeQuoted_append hq2]
  · intro hclose
    constructor
    · rw [matchQuoted_reduce k (q1 :: v) hk hkw, hqd]
      simp [hq1, hclose]
    · rw [matchConfig_reduce k (q1 :: v) hk hkw, hqd]

theorem quoted_pattern_behavior_witness :
    matchQuotedConfigLine ("k=\"abc'".data) = some ("k".data, "abc".data)
    ∧ matchQuotedConfigLine ("k=\"abc".data) = none
    ∧ matchConfigLine ("k=\"abc".data) = some ("k".data, "\"abc".data) := by
  have h := quoted_pattern_behavior "k".data "abc".data '"' '\''
    (by decide) (by decide) (by decide) (by decide)
  have h2 := h.2 (by decide)
  exact ⟨h.1, h2.1, h2.2⟩

/-! ### C5: line classification -/

/-- C5 counterexample: a line whose first non-whitespace character is `#`
but which begins with whitespace is *not* ignored as a comment — the
comment pattern `^#.*$` anchors `#` at the first character, so ` #c`
matches no pattern and parsing fails with the malformed-line error. -/
theorem comment_leading_space_cex :
    parseToRawMap [" #c"] = ([], some CfgError.errInvalidConfigFile)
    ∧ parseToRawMap ["#c"] = ([], none) := by
  constructor
  · decide
  · decide

/-- C5 (amended): lines are classified in priority order comment line
(first character is `#`, with no trimming of leading whitespace), blank
line, section header, key/value line (quoted pattern preferred), else the
malformed-line error. -/
theorem line_classification (line : String) :
    (commentLineMatch line.data = true → parseToRawMap [line] = ([], none))
    ∧ (commentLineMatch line.data = false → blankLineMatch line.data = true →
        parseToRawMap [line] = ([], none))
    ∧ (∀ w, commentLineMatch line.data = false → blankLineMatch line.data = false →
        matchConfigSection line.data = some w →
        parseToRawMap [line] = ([(String.mk w, [])], none))
    ∧ (∀ k v kq vq, commentLineMatch line.data = false →
        blankLineMatch line.data = false →
        matchConfigSection line.data = none →
        matchConfigLine line.data = some (k, v) →
        matchQuotedConfigLine line.data = some (kq, vq) →
        parseToRawMap [line] =
          ([(defaultSection, [(String.mk kq, String.mk vq)])], none))
    ∧ (∀ k v, commentLineMatch line.data = false →
        blankLineMatch line.data = false →
        matchConfigSection line.data = none →
        matchConfigLine line.data = some (k, v) →
        matchQuotedConfigLine line.data = none →
        parseToRawMap [line] =
          ([(defaultSection, [(String.mk k, String.mk v)])], none))
    ∧ (commentLineMatch line.data = false → blankLineMatch line.data = false →
        matchConfigSection line.data = none →
        matchConfigLine line.data = none →
        parseToRawMap [line] = ([], some CfgError.errInvalidConfigFile)) := by
  refine ⟨?_, ?_, ?_, ?_, ?_, ?_⟩
  · intro h
    simp [parseToRawMap, parseLines, h]
  · intro h1 h2
    simp [parseToRawMap, parseLines, h1, h2]
  · intro w h1 h2 h3
    simp [parseToRawMap, parseLines, h1, h2, h3, addSection, sectionInConfig]
  · intro k v kq vq h1 h2 h3 h4 h5
    simp [parseToRawMap, parseLines, h1, h2, h3, h4, h5, addSection,
      sectionInConfig, setKV, setEntry]
  · intro k v h1 h2 h3 h4 h5
    simp [parseToRawMap, parseLines, h1, h2, h3, h4, h5, addSection,
      sectionInConfig, setKV, setEntry]
  · intro h1 h2 h3 h4
    simp [parseToRawMap, parseLines, h1, h2, h3, h4]

theorem line_classification_witness :
    parseToRawMap ["#c"] = ([], none)
    ∧ parseToRawMap ["  "] = ([], none)
    ∧ parseToRawMap ["[a]"] = ([("a", [])], none)
    ∧ parseToRawMap ["k = 'v'"] = ([(defaultSection, [("k", "v")])], none)
    ∧ parseToRawMap ["k = w"] = ([(defaultSection, [("k", "w")])], none)
    ∧ parseToRawMap ["?"] = ([], some CfgError.errInvalidConfigFile) :=
  ⟨(line_classification "#c").1 rfl,
   (line_classification "  ").2.1 rfl rfl,
   (line_classification "[a]").2.2.1 "a".data rfl rfl rfl,
   (line_classification "k = 'v'").2.2.2.1 "k".data "'v'".data "k".data "v".data
     rfl rfl rfl rfl rfl,
   (line_classification "k = w").2.2.2.2.1 "k".data "w".data rfl rfl rfl rfl rfl,
   (line_classification "?").2.2.2.2.2 rfl rfl rfl rfl⟩

end Multiroot

namespace Remote

/-! ### Concrete signer states and environments used by the witnesses -/

/-- A profile with an auth provider configured for signing. -/
def profAuth : Profile :=
  { remoteServer := "ca", remoteCAs := 0, clientCert := 0
  , remoteProvider := some ⟨7⟩ }

/-- A profile with no auth provider. -/
def profPlain : Profile :=
  { remoteServer := "ca", remoteCAs := 0, clientCert := 0
  , remoteProvider := none }

/-- The sign request used by the witnesses. -/
def sigReqW : SignRequest := { profile := "p", label := "l" }

/-- The info request used by the witnesses. -/
def infoReqW : InfoReq := { profile := "p", label := "l" }

/-- The parsed certificate used by the insert-failure witness. -/
def parsedW : ParsedCert :=
  { serialNumber := 5, subject := "CN=x", authorityKeyId := [171], notAfter := 100 }

/-- Remote CA answering every call with certificate bytes; certificate
parsing succeeds. -/
def renvInsertFail : RemoteEnv :=
  { marshal := fun _ => .ok [1]
  , resolveProfile := fun _ _ => .ok profPlain
  , serverOk := fun _ => true
  , respond := fun _ => .ok (.certBytes [2])
  , parseCertificatePEM := fun _ => some parsedW }

/-- A signer whose persistence handle fails every insert. -/
def sInsertFail : SignerState :=
  { policy := some ⟨0⟩, reqModifier := none
  , dbAccessor := some (fun _ => .error (.plain "db")) }

/-- A transport that answers the plain info call and rejects every other
call, so an accidentally authenticated call would surface as an error. -/
def renvInfo : RemoteEnv :=
  { marshal := fun _ => .ok [1]
  , resolveProfile := fun _ _ => .ok profAuth
  , serverOk := fun _ => true
  , respond := fun c =>
      match c with
      | .info _ => .ok (.infoResp ⟨3⟩)
      | _ => .error (.plain "not-info")
  , parseCertificatePEM := fun _ => none }

/-- A signer with no persistence handle. -/
def sPlain : SignerState :=
  { policy := some ⟨0⟩, reqModifier := none, dbAccessor := none }

/-- A signer whose persistence handle accepts every insert. -/
def sDbOk : SignerState :=
  { policy := some ⟨0⟩, reqModifier := none
  , dbAccessor := some (fun _ => .ok ()) }

/-- Remote CA answering with certificate bytes that fail PEM parsing. -/
def renvParseFail : RemoteEnv :=
  { marshal := fun _ => .ok [1]
  , resolveProfile := fun _ _ => .ok profPlain
  , serverOk := fun _ => true
  , respond := fun _ => .ok (.certBytes [2])
  , parseCertificatePEM := fun _ => none }

/-- When the steps up to the network succeed, `remoteOp` with a `sign`
target returns exactly what the transport answers to the (possibly
authenticated) outbound sign call. -/
theorem remoteOp_sign_reduce (s : SignerState) (env : RemoteEnv)
    (req : SignRequest) (j : Bytes) (p : Profile) (cert : Bytes)
    (hm : env.marshal (.signReq req) = .ok j)
    (hp : env.resolveProfile s.policy req.profile = .ok p)
    (hsv : env.serverOk p = true)
    (hr : env.respond (outboundSignCall j p.remoteProvider) = .ok (.certBytes cert)) :
    remoteOp s env (.signReq req) req.profile "sign" = .ok (.certBytes cert) := by
  unfold remoteOp
  cases hprov : p.remoteProvider with
  | none =>
    rw [hprov] at hr
    simp only [outboundSignCall] at hr
    simp [hm, hp, hsv, hprov, hr]
  | some prov =>
    rw [hprov] at hr
    simp only [outboundSignCall] at hr
    simp [hm, hp, hsv, hprov, hr]

/-! ### C1: an insert failure aborts `Sign` -/

/-- C1: when a persistence handle is configured and the record insert
fails, `Sign` returns the insert's error and the certificate bytes
obtained from the remote CA are not returned. -/
theorem sign_insert_failure_aborts (s : SignerState) (env : RemoteEnv)
    (req : SignRequest) (j : Bytes) (p : Profile) (cert : Bytes)
    (pc : ParsedCert) (ins : CertificateRecord → Except RError Unit) (e : RError)
    (hdb : s.dbAccessor = some ins)
    (hm : env.marshal (.signReq req) = .ok j)
    (hp : env.resolveProfile s.policy req.profile = .ok p)
    (hsv : env.serverOk p = true)
    (hr : env.respond (outboundSignCall j p.remoteProvider) = .ok (.certBytes cert))
    (hpc : env.parseCertificatePEM cert = some pc)
    (hins : ins (mkCertRecord pc req cert j) = .error e) :
    Sign s env req = .error e ∧ ∀ b, Sign s env req ≠ .ok b := by
  have hop := remoteOp_sign_reduce s env req j p cert hm hp hsv hr
  have hmain : Sign s env req = .error e := by
    unfold Sign
    rw [hop]
    simp only [hpc, hm, hdb, hins]
  exact ⟨hmain, fun b h => by rw [hmain] at h; exact Outcome.noConfusion h⟩

theorem sign_insert_failure_aborts_witness :
    Sign sInsertFail renvInsertFail sigReqW = .error (.plain "db")
    ∧ Sign sInsertFail renvInsertFail sigReqW ≠ .ok [2] :=
  ⟨(sign_insert_failure_aborts sInsertFail renvInsertFail sigReqW [1] profPlain
      [2] parsedW (fun _ => .error (.plain "db")) (.plain "db")
      rfl rfl rfl rfl rfl rfl rfl).1,
   (sign_insert_failure_aborts sInsertFail renvInsertFail sigReqW [1] profPlain
      [2] parsedW (fun _ => .error (.plain "db")) (.plain "db")
      rfl rfl rfl rfl rfl rfl rfl).2 [2]⟩

/-! ### C2: `Info` never authenticates the outbound call -/

/-- C2: `Info` hands the transport the plain info call — carrying no auth
provider — even when the resolved profile has an auth provider configured
for signing; the result is determined by the transport's answer to that
plain info call alone. -/
theorem info_never_authenticated (s : SignerState) (env : RemoteEnv)
    (req : InfoReq) (j : Bytes) (p : Profile) (prov : AuthProvider)
    (hm : env.marshal (.infoReq req) = .ok j)
    (hp : env.resolveProfile s.policy req.profile = .ok p)
    (hprov : p.remoteProvider = some prov)
    (hsv : env.serverOk p = true) :
    Info s env req =
      (match env.respond (RemoteCall.info j) with
       | .error e => .error e
       | .ok (.infoResp r) => .ok (some r)
       | .ok _ => .ok none) := by
  unfold Info remoteOp
  cases hresp : env.respond (RemoteCall.info j) with
  | error e => simp [hm, hp, hsv, hresp]
  | ok r => cases r <;> simp [hm, hp, hsv, hresp]

theorem info_never_authenticated_witness :
    Info sPlain renvInfo infoReqW = .ok (some ⟨3⟩) := by
  rw [info_never_authenticated sPlain renvInfo infoReqW [1] profAuth ⟨7⟩
    rfl rfl rfl rfl]
  rfl

/-! ### C3: a certificate-parse failure is silently ignored -/

/-- C3 counterexample: the remote CA returns bytes that fail certificate
parsing while a persistence handle is configured; `Sign` does not proceed
(nor fail with the parse error) — it crashes dereferencing the nil parse
result while building the `CertificateRecord`. -/
theorem sign_parse_failure_db_crash_cex :
    Sign sDbOk renvParseFail sigReqW = .crash := by decide

/-- C3 (amended): the PEM-parse error on the returned certificate bytes is
discarded; with no persistence handle `Sign` silently proceeds and returns
the bytes, but with a persistence handle configured the nil parse result
is dereferenced while building the `CertificateRecord`, so the call
crashes instead of proceeding (and the parse error is never returned). -/
theorem sign_parse_error_ignored (s : SignerState) (env : RemoteEnv)
    (req : SignRequest) (j : Bytes) (p : Profile) (cert : Bytes)
    (hm : env.marshal (.signReq req) = .ok j)
    (hp : env.resolveProfile s.policy req.profile = .ok p)
    (hsv : env.serverOk p = true)
    (hr : env.respond (outboundSignCall j p.remoteProvider) = .ok (.certBytes cert))
    (hpc : env.parseCertificatePEM cert = none) :
    (s.dbAccessor = none → Sign s env req = .ok cert)
    ∧ (∀ ins, s.dbAccessor = some ins → Sign s env req = .crash) := by
  have hop := remoteOp_sign_reduce s env req j p cert hm hp hsv hr
  constructor
  · intro hdb
    unfold Sign
    rw [hop]
    simp only [hpc, hm, hdb]
  · intro ins hdb
    unfold Sign
    rw [hop]
    simp only [hpc, hm, hdb]

theorem sign_parse_error_ignored_witness :
    Sign sPlain renvParseFail sigReqW = .ok [2]
    ∧ Sign sDbOk renvParseFail sigReqW = .crash :=
  ⟨(sign_parse_error_ignored sPlain renvParseFail sigReqW [1] profPlain [2]
      rfl rfl rfl rfl rfl).1 rfl,
   (sign_parse_error_ignored sDbOk renvParseFail sigReqW [1] profPlain [2]
      rfl rfl rfl rfl rfl).2 (fun _ => .ok ()) rfl⟩

end Remote
